import Mathlib

/-!
Shallow embedding of the two subsystems of the `awesome-llm-agents`
notebooks that the claims concern:

* the memory-enhanced conversational agent
  (`memory_enhanced_conversational_agent.ipynb`): the global stores
  `chat_store` / `long_term_memory`, the functions `get_chat_history`,
  `update_long_term_memory`, `get_long_term_memory`, and `chat`;
* the fixed-pipeline collaboration system
  (`multi_agent_collaboration_system.ipynb`): the five step functions and
  `HistoryDataCollaborationSystem.solve`.

Python dictionaries are embedded as functions `String → Option _`
(`none` = key absent); in-place mutation becomes explicit state passing.
The remote model call is an oracle parameter returning `Except String String`
(`.error e` models a raised exception with message `e`).  Wall-clock time in
`solve` is an oracle `elapsed : Nat → ℚ` giving the value of
`time.time() - start_time` observed at the check before the i-th step.
-/

namespace AwesomeAgents

/-- One role-tagged message, `{"role": ..., "content": ...}` in the source. -/
structure Turn where
  role : String
  content : String
deriving DecidableEq

/-- `chat_store`: per-session short-term history dictionary. -/
abbrev ChatStore := String → Option (List Turn)

/-- `long_term_memory`: per-session list of admitted user/assistant pairs;
each pair is the two-element list `message` built in
`update_long_term_memory`. -/
abbrev LtmStore := String → Option (List (List Turn))

/-- The `message` value built in `update_long_term_memory`:
`[{"role": "user", "content": input_text}, {"role": "assistant", "content": output_text}]`. -/
def pairOf (input_text output_text : String) : List Turn :=
  [⟨"user", input_text⟩, ⟨"assistant", output_text⟩]

/-- `get_chat_history(session_id)`: returns the session's history, creating an
empty entry on first reference.  The returned pair is (result, updated store),
making the dictionary mutation explicit. -/
def get_chat_history (store : ChatStore) (session_id : String) :
    List Turn × ChatStore :=
  match store session_id with
  | some h => (h, store)
  | none => ([], fun s => if s = session_id then some [] else store s)

/-- `update_long_term_memory(session_id, input_text, output_text)`:
ensure the entry exists, append the pair when `len(input_text) > 20`, then
trim to the last 5 pairs when the list exceeds 5 (`lst[-5:]`, i.e. drop from
the front). -/
def update_long_term_memory (ltm : LtmStore)
    (session_id input_text output_text : String) : LtmStore :=
  let cur0 := (ltm session_id).getD []
  let cur1 :=
    if input_text.length > 20 then cur0 ++ [pairOf input_text output_text]
    else cur0
  let cur2 := if cur1.length > 5 then cur1.drop (cur1.length - 5) else cur1
  fun s => if s = session_id then some cur2 else ltm s

/-- Rendering of one stored turn, modelling Python's `str` of the dict
`{'role': r, 'content': c}` (quote-escaping inside the contents abstracted). -/
def pyReprTurn (t : Turn) : String :=
  "\x7b'role': '" ++ t.role ++ "', 'content': '" ++ t.content ++ "'\x7d"

/-- Rendering of one stored pair, Python's `str` of a two-element list. -/
def pyReprPair (p : List Turn) : String :=
  "[" ++ String.intercalate ", " (p.map pyReprTurn) ++ "]"

/-- `get_long_term_memory(session_id)`:
`". ".join(str(item) for item in long_term_memory.get(session_id, []))`. -/
def get_long_term_memory (ltm : LtmStore) (session_id : String) : String :=
  String.intercalate ". " (((ltm session_id).getD []).map pyReprPair)

/-- One line `f"{message['role']}: {message['content']}\n"` of the prompt. -/
def renderTurn (t : Turn) : String := t.role ++ ": " ++ t.content ++ "\n"

/-- The chat-history block of the prompt, one `renderTurn` line per turn in
stored (chronological) order. -/
def renderHistory : List Turn → String
  | [] => ""
  | t :: ts => renderTurn t ++ renderHistory ts

/-- The fixed preamble plus the long-term-memory line of the prompt built in
`chat` (the string `long_term_mem` is falsy in Python exactly when empty). -/
def promptHeader (long_term_mem : String) : String :=
  "You are a helpful AI assistant. Use the information from long-term memory if relevant.\n"
    ++ (if long_term_mem = "" then "No long-term memory yet.\n"
        else "Long-term memory: " ++ long_term_mem ++ "\n")

/-- The full prompt `chat` builds: preamble and long-term memory, then the
chat history in order, then `f"user: {input_text}\n"`. -/
def chatPrompt (long_term_mem : String) (chat_history : List Turn)
    (input_text : String) : String :=
  (chat_history.foldl (fun acc m => acc ++ renderTurn m)
    (promptHeader long_term_mem))
    ++ "user: " ++ input_text ++ "\n"

/-- The two global stores of the memory notebook, as one state record. -/
structure AgentState where
  chat_store : ChatStore
  long_term_memory : LtmStore

/-- The prompt `chat` passes to `generate_response`, as a function of the
pre-call state. -/
def chatPromptOf (st : AgentState) (input_text session_id : String) : String :=
  chatPrompt (get_long_term_memory st.long_term_memory session_id)
    ((st.chat_store session_id).getD []) input_text

/-- `chat(input_text, session_id)`.  `gen` is the `generate_response`
boundary (`.error e` = the remote call raised with message `e`; the
`session_id` argument of `generate_response` is unused in the source).
Returns the result (response or propagated failure) together with the final
state: on success the user turn and the `"assitant"` turn (typo as in the
source) are appended and the long-term store updated; on failure only the
possible creation of an empty history entry by `get_chat_history` has
happened. -/
def chat (gen : String → Except String String) (st : AgentState)
    (input_text session_id : String) : Except String String × AgentState :=
  let long_term_mem := get_long_term_memory st.long_term_memory session_id
  let gh := get_chat_history st.chat_store session_id
  let chat_history := gh.1
  let store1 := gh.2
  let prompt := chatPrompt long_term_mem chat_history input_text
  match gen prompt with
  | .error e => (.error e, ⟨store1, st.long_term_memory⟩)
  | .ok response =>
      let newHist := chat_history ++
        [⟨"user", input_text⟩, ⟨"assitant", response⟩]
      (.ok response,
        ⟨fun s => if s = session_id then some newHist else store1 s,
         update_long_term_memory st.long_term_memory session_id input_text
           response⟩)

/-- The empty long-term store (fresh process state). -/
def emptyLtm : LtmStore := fun _ => none

/-- Fold a sequence of `update_long_term_memory` calls
(session_id, input_text, output_text) over a store. -/
def applyUpdates (ltm : LtmStore) (calls : List (String × String × String)) :
    LtmStore :=
  calls.foldl (fun m c => update_long_term_memory m c.1 c.2.1 c.2.2) ltm

/-! ## Fixed-pipeline collaboration system -/

/-- Outcome of one pipeline step function: it returned the (updated) context
list, returned a plain string (the early final answer), or raised an
exception whose `str` is `msg`. -/
inductive StepOut where
  | ctx (c : List Turn)
  | final (s : String)
  | raise (msg : String)
deriving DecidableEq

/-- A pipeline step after binding its agent, the task, and the model
boundary: a function of the current shared context. -/
abbrev Step := List Turn → StepOut

/-- The literal returned by `solve` when the timeout check fires. -/
def timeoutMessage : String :=
  "Operation timed out. The process took too long to complete."

/-- The literal `f"Error during collaboration: {str(e)}"` returned by `solve`
when a step raises. -/
def errorMessage (e : String) : String := "Error during collaboration: " ++ e

/-- The loop of `HistoryDataCollaborationSystem.solve`, from step index `i`
with current `context`.  `elapsed j` is the wall-clock oracle: the value of
`time.time() - start_time` observed at the check before step `j`.  `none`
models the uncaught IndexError of `context[-1]` on an empty final context
(unreachable in the concrete pipeline). -/
def solveLoop (elapsed : Nat → ℚ) (timeout : ℚ) :
    List Step → Nat → List Turn → Option String
  | [], _, context => context.getLast?.map Turn.content
  | f :: rest, i, context =>
    if elapsed i > timeout then some timeoutMessage
    else
      match f context with
      | .raise e => some (errorMessage e)
      | .final s => some s
      | .ctx c => solveLoop elapsed timeout rest (i + 1) c

/-- Run a list of steps assuming each returns a context and no timeout check
fires: `some` of the resulting context, `none` as soon as a check fires or a
step does not return a context.  Used to describe the executions in which
`solveLoop` reaches a given step. -/
def execClean (elapsed : Nat → ℚ) (timeout : ℚ) :
    List Step → Nat → List Turn → Option (List Turn)
  | [], _, c => some c
  | f :: rest, i, c =>
    if elapsed i > timeout then none
    else
      match f c with
      | .ctx c' => execClean elapsed timeout rest (i + 1) c'
      | _ => none

/-- `Agent.__init__`: name, role, skills. -/
structure Agent where
  name : String
  role : String
  skills : List String

/-- The message list `Agent.process` builds: system persona, then the
provided context when truthy (non-`None` and non-empty), then
`f"Task: {task}"` as a user turn. -/
def Agent.processMessages (a : Agent) (task : String)
    (context : Option (List Turn)) : List Turn :=
  let messages : List Turn :=
    [⟨"system", "You are " ++ a.name ++ ", a " ++ a.role
        ++ ". Your skills include: " ++ String.intercalate ", " a.skills
        ++ ". Respond to the task based on your role and skills."⟩]
  let messages :=
    match context with
    | some c => if c = [] then messages else messages ++ c
    | none => messages
  messages ++ [⟨"user", "Task: " ++ task⟩]

/-- `Agent.process`: delegate the built message list to the model boundary
`complete` (`.error e` = the remote call raised with message `e`). -/
def Agent.process (complete : List Turn → Except String String) (a : Agent)
    (task : String) (context : Option (List Turn)) : Except String String :=
  complete (a.processMessages task context)

/-- `research_historical_context(history_agent, task, context)`. -/
def research_historical_context (complete : List Turn → Except String String)
    (history_agent : Agent) (task : String) : Step := fun context =>
  match history_agent.process complete
      ("Provide relevant historical context and information for the following task: "
        ++ task) none with
  | .error e => .raise e
  | .ok r => .ctx (context ++ [⟨"assistant", "History Agent: " ++ r⟩])

/-- `identify_data_needs(data_agent, task, context)`; reading `context[-1]`
on an empty context raises IndexError. -/
def identify_data_needs (complete : List Turn → Except String String)
    (data_agent : Agent) (task : String) : Step := fun context =>
  match context.getLast? with
  | none => .raise "list index out of range"
  | some lastT =>
    match data_agent.process complete
        ("Based on the historical context, what specific data or statistical information would be helpful to answer the original question? Historical context: "
          ++ lastT.content) (some context) with
    | .error e => .raise e
    | .ok r => .ctx (context ++ [⟨"assistant", "Data Agent: " ++ r⟩])

/-- `provide_historical_data(history_agent, task, context)`. -/
def provide_historical_data (complete : List Turn → Except String String)
    (history_agent : Agent) (task : String) : Step := fun context =>
  match context.getLast? with
  | none => .raise "list index out of range"
  | some lastT =>
    match history_agent.process complete
        ("Based on the data needs identified, provide relevant historical data or statistics. Data needs: "
          ++ lastT.content) (some context) with
    | .error e => .raise e
    | .ok r => .ctx (context ++ [⟨"assistant", "History Agent: " ++ r⟩])

/-- `analyze_data(data_agent, task, context)`. -/
def analyze_data (complete : List Turn → Except String String)
    (data_agent : Agent) (task : String) : Step := fun context =>
  match context.getLast? with
  | none => .raise "list index out of range"
  | some lastT =>
    match data_agent.process complete
        ("Analyze the historical data provided and describe any trends or insights relevant to the original task. Historical data: "
          ++ lastT.content) (some context) with
    | .error e => .raise e
    | .ok r => .ctx (context ++ [⟨"assistant", "Data Agent: " ++ r⟩])

/-- `synthesize_final_answer(history_agent, task, context)`: returns the
model's answer as a plain string (early final return from the loop). -/
def synthesize_final_answer (complete : List Turn → Except String String)
    (history_agent : Agent) (task : String) : Step := fun context =>
  match history_agent.process complete
      "Based on all the historical context, data, and analysis, provide a comprehensive answer to the original task."
      (some context) with
  | .error e => .raise e
  | .ok r => .final r

namespace HistoryDataCollaborationSystem

/-- `self.history_agent`. -/
def history_agent : Agent :=
  ⟨"Clio", "History Research Specialist",
    ["deep knowledge of historical events", "understanding of historical contexts",
      "identifying historical trends"]⟩

/-- `self.data_agent`. -/
def data_agent : Agent :=
  ⟨"Data", "Data Analysis Expert",
    ["interpreting numerical data", "statistical analysis",
      "data visualization description"]⟩

/-- The fixed `steps` list built inside `solve`. -/
def steps (complete : List Turn → Except String String) (task : String) :
    List Step :=
  [research_historical_context complete history_agent task,
    identify_data_needs complete data_agent task,
    provide_historical_data complete history_agent task,
    analyze_data complete data_agent task,
    synthesize_final_answer complete history_agent task]

/-- `solve(task, timeout)`: run the five steps in order from an empty
context, starting the wall clock at index 0. -/
def solve (complete : List Turn → Except String String) (elapsed : Nat → ℚ)
    (task : String) (timeout : ℚ) : Option String :=
  solveLoop elapsed timeout (steps complete task) 0 []

end HistoryDataCollaborationSystem

/-- A step that, on every context, appends at least one entry and returns the
updated context (the behaviour the spec calls "appends to `context` and
returns it"). -/
def AppendsStep (f : Step) : Prop :=
  ∀ c, ∃ ts, ts ≠ [] ∧ f c = .ctx (c ++ ts)

/-- Every pair of a long-term list is an admitted user/assistant pair whose
user input exceeds the threshold. -/
def AdmissiblePairs (l : List (List Turn)) : Prop :=
  ∀ p ∈ l, ∃ i o, p = pairOf i o ∧ 20 < i.length

/-! ## Lemmas about the long-term memory store -/

theorem update_other (ltm : LtmStore) (sid i o s : String) (h : s ≠ sid) :
    update_long_term_memory ltm sid i o s = ltm s := by
  simp [update_long_term_memory, h]

theorem update_self_admitted (ltm : LtmStore) (sid i o : String)
    (hadm : 20 < i.length) :
    update_long_term_memory ltm sid i o sid =
      some (if 5 < ((ltm sid).getD [] ++ [pairOf i o]).length
            then ((ltm sid).getD [] ++ [pairOf i o]).drop
              (((ltm sid).getD [] ++ [pairOf i o]).length - 5)
            else (ltm sid).getD [] ++ [pairOf i o]) := by
  simp [update_long_term_memory, hadm]

theorem update_self_skipped (ltm : LtmStore) (sid i o : String)
    (hadm : ¬ 20 < i.length) :
    update_long_term_memory ltm sid i o sid =
      some (if 5 < ((ltm sid).getD []).length
            then ((ltm sid).getD []).drop (((ltm sid).getD []).length - 5)
            else (ltm sid).getD []) := by
  simp [update_long_term_memory, hadm]

theorem update_self_length (ltm : LtmStore) (sid i o : String) :
    ((update_long_term_memory ltm sid i o sid).getD []).length ≤ 5 := by
  by_cases hadm : 20 < i.length
  · rw [update_self_admitted ltm sid i o hadm]
    simp only [Option.getD_some]
    split <;> rename_i h2
    · simp only [List.length_drop]
      omega
    · omega
  · rw [update_self_skipped ltm sid i o hadm]
    simp only [Option.getD_some]
    split <;> rename_i h2
    · simp only [List.length_drop]
      omega
    · omega

theorem update_length_invariant (ltm : LtmStore)
    (h : ∀ s, ((ltm s).getD []).length ≤ 5) (sid i o : String) :
    ∀ s, ((update_long_term_memory ltm sid i o s).getD []).length ≤ 5 := by
  intro s
  by_cases hs : s = sid
  · subst hs
    exact update_self_length ltm s i o
  · rw [update_other ltm sid i o s hs]
    exact h s

theorem applyUpdates_length (calls : List (String × String × String)) :
    ∀ ltm : LtmStore, (∀ s, ((ltm s).getD []).length ≤ 5) →
      ∀ s, ((applyUpdates ltm calls s).getD []).length ≤ 5 := by
  induction calls with
  | nil => intro ltm h s; exact h s
  | cons c rest ih =>
      intro ltm h s
      exact ih (update_long_term_memory ltm c.1 c.2.1 c.2.2)
        (update_length_invariant ltm h c.1 c.2.1 c.2.2) s

theorem update_admissible_invariant (ltm : LtmStore)
    (h : ∀ s, AdmissiblePairs ((ltm s).getD [])) (sid i o : String) :
    ∀ s, AdmissiblePairs ((update_long_term_memory ltm sid i o s).getD []) := by
  intro s
  by_cases hs : s = sid
  · subst hs
    by_cases hadm : 20 < i.length
    · rw [update_self_admitted ltm s i o hadm]
      simp only [Option.getD_some]
      intro p hp
      have hp1 : p ∈ (ltm s).getD [] ++ [pairOf i o] := by
        by_cases h5 : 5 < ((ltm s).getD [] ++ [pairOf i o]).length
        · rw [if_pos h5] at hp
          exact List.drop_subset _ _ hp
        · rwa [if_neg h5] at hp
      rcases List.mem_append.1 hp1 with hmem | hmem
      · exact h s p hmem
      · refine ⟨i, o, ?_, hadm⟩
        simpa using hmem
    · rw [update_self_skipped ltm s i o hadm]
      simp only [Option.getD_some]
      intro p hp
      have hp1 : p ∈ (ltm s).getD [] := by
        by_cases h5 : 5 < ((ltm s).getD []).length
        · rw [if_pos h5] at hp
          exact List.drop_subset _ _ hp
        · rwa [if_neg h5] at hp
      exact h s p hp1
  · rw [update_other ltm sid i o s hs]
    exact h s

theorem applyUpdates_admissible (calls : List (String × String × String)) :
    ∀ ltm : LtmStore, (∀ s, AdmissiblePairs ((ltm s).getD [])) →
      ∀ s, AdmissiblePairs ((applyUpdates ltm calls s).getD []) := by
  induction calls with
  | nil => intro ltm h s; exact h s
  | cons c rest ih =>
      intro ltm h s
      exact ih (update_long_term_memory ltm c.1 c.2.1 c.2.2)
        (update_admissible_invariant ltm h c.1 c.2.1 c.2.2) s

theorem update_self_not_admitted (ltm : LtmStore) (sid i o : String)
    (hadm : i.length ≤ 20) (hlen : ((ltm sid).getD []).length ≤ 5) :
    update_long_term_memory ltm sid i o sid = some ((ltm sid).getD []) := by
  rw [update_self_skipped ltm sid i o (by omega), if_neg (by omega)]

/-! ## Claim theorems about the long-term memory store -/

/-- C4: `update_long_term_memory` appends the pair to the session's store iff
`len(input_text) > 20` — when admitted the pair ends the new store; when not
admitted no element is added — and across every sequence of calls starting
from the empty store, every stored pair is an admitted pair whose user input
has length > 20 (an input of length ≤ 20 never appears). -/
theorem claim4_admission_threshold :
    (∀ (ltm : LtmStore) (sid i o : String), 20 < i.length →
      ∃ rest, update_long_term_memory ltm sid i o sid =
        some (rest ++ [pairOf i o])) ∧
    (∀ (ltm : LtmStore) (sid i o : String) (p : List Turn), i.length ≤ 20 →
      p ∈ (update_long_term_memory ltm sid i o sid).getD [] →
      p ∈ (ltm sid).getD []) ∧
    (∀ (calls : List (String × String × String)) (s : String)
      (p : List Turn), p ∈ (applyUpdates emptyLtm calls s).getD [] →
      ∃ i o, p = pairOf i o ∧ 20 < i.length) := by
  refine ⟨?_, ?_, ?_⟩
  · intro ltm sid i o hadm
    rw [update_self_admitted ltm sid i o hadm]
    by_cases h5 : 5 < ((ltm sid).getD [] ++ [pairOf i o]).length
    · rw [if_pos h5]
      refine ⟨((ltm sid).getD []).drop
        ((((ltm sid).getD [] ++ [pairOf i o]).length - 5)), ?_⟩
      rw [List.drop_append_of_le_length]
      have : ((ltm sid).getD [] ++ [pairOf i o]).length =
          ((ltm sid).getD []).length + 1 := by simp
      omega
    · rw [if_neg h5]
      exact ⟨(ltm sid).getD [], rfl⟩
  · intro ltm sid i o p hadm hp
    rw [update_self_skipped ltm sid i o (by omega)] at hp
    simp only [Option.getD_some] at hp
    by_cases h5 : 5 < ((ltm sid).getD []).length
    · rw [if_pos h5] at hp
      exact List.drop_subset _ _ hp
    · rwa [if_neg h5] at hp
  · intro calls s p hp
    exact applyUpdates_admissible calls emptyLtm
      (fun _ => by simp [AdmissiblePairs, emptyLtm]) s p hp

/-- Witness for C4 at concrete inputs: an admissible 21-character input is
appended, a 2-character input adds nothing, and after one admissible call
from the empty store each stored pair has input length > 20. -/
theorem claim4_admission_threshold_witness :
    (∃ rest, update_long_term_memory emptyLtm "k" "aaaaaaaaaaaaaaaaaaaaa" "o" "k" =
      some (rest ++ [pairOf "aaaaaaaaaaaaaaaaaaaaa" "o"])) ∧
    (pairOf "aaaaaaaaaaaaaaaaaaaaa" "o" ∈
      (((fun s => if s = "k" then some [pairOf "aaaaaaaaaaaaaaaaaaaaa" "o"]
          else none) : LtmStore) "k").getD []) ∧
    (∃ i o, pairOf "aaaaaaaaaaaaaaaaaaaaa" "o" = pairOf i o ∧ 20 < i.length) := by
  refine ⟨claim4_admission_threshold.1 emptyLtm "k" "aaaaaaaaaaaaaaaaaaaaa" "o"
      (by decide),
    claim4_admission_threshold.2.1
      (fun s => if s = "k" then some [pairOf "aaaaaaaaaaaaaaaaaaaaa" "o"] else none)
      "k" "Hi" "r" (pairOf "aaaaaaaaaaaaaaaaaaaaa" "o") (by decide) (by decide),
    claim4_admission_threshold.2.2 [("k", "aaaaaaaaaaaaaaaaaaaaa", "o")] "k"
      (pairOf "aaaaaaaaaaaaaaaaaaaaa" "o") (by decide)⟩

/-- C5: FIFO insert-then-trim eviction: inserting six admissible pairs in
order into a session whose long-term list starts empty leaves exactly the
last five, the oldest pair having been evicted from the front. -/
theorem claim5_fifo_eviction (ltm : LtmStore) (s : String)
    (i1 i2 i3 i4 i5 i6 o1 o2 o3 o4 o5 o6 : String)
    (h0 : (ltm s).getD [] = [])
    (h1 : 20 < i1.length) (h2 : 20 < i2.length) (h3 : 20 < i3.length)
    (h4 : 20 < i4.length) (h5 : 20 < i5.length) (h6 : 20 < i6.length) :
    applyUpdates ltm
      [(s, i1, o1), (s, i2, o2), (s, i3, o3), (s, i4, o4), (s, i5, o5),
        (s, i6, o6)] s =
      some [pairOf i2 o2, pairOf i3 o3, pairOf i4 o4, pairOf i5 o5,
        pairOf i6 o6] := by
  have g1 : (update_long_term_memory ltm s i1 o1 s).getD [] =
      [pairOf i1 o1] := by
    rw [update_self_admitted ltm s i1 o1 h1, h0]
    simp
  have g2 : (update_long_term_memory (update_long_term_memory ltm s i1 o1)
      s i2 o2 s).getD [] = [pairOf i1 o1, pairOf i2 o2] := by
    rw [update_self_admitted _ s i2 o2 h2, g1]
    simp
  have g3 : (update_long_term_memory (update_long_term_memory
      (update_long_term_memory ltm s i1 o1) s i2 o2) s i3 o3 s).getD [] =
      [pairOf i1 o1, pairOf i2 o2, pairOf i3 o3] := by
    rw [update_self_admitted _ s i3 o3 h3, g2]
    simp
  have g4 : (update_long_term_memory (update_long_term_memory
      (update_long_term_memory (update_long_term_memory ltm s i1 o1)
        s i2 o2) s i3 o3) s i4 o4 s).getD [] =
      [pairOf i1 o1, pairOf i2 o2, pairOf i3 o3, pairOf i4 o4] := by
    rw [update_self_admitted _ s i4 o4 h4, g3]
    simp
  have g5 : (update_long_term_memory (update_long_term_memory
      (update_long_term_memory (update_long_term_memory
        (update_long_term_memory ltm s i1 o1) s i2 o2) s i3 o3) s i4 o4)
      s i5 o5 s).getD [] =
      [pairOf i1 o1, pairOf i2 o2, pairOf i3 o3, pairOf i4 o4,
        pairOf i5 o5] := by
    rw [update_self_admitted _ s i5 o5 h5, g4]
    simp
  show update_long_term_memory (update_long_term_memory
      (update_long_term_memory (update_long_term_memory
        (update_long_term_memory (update_long_term_memory ltm s i1 o1)
          s i2 o2) s i3 o3) s i4 o4) s i5 o5) s i6 o6 s = _
  rw [update_self_admitted _ s i6 o6 h6, g5]
  simp

/-- Witness for C5 at concrete inputs: six 21-character inputs into a fresh
session leave exactly the last five pairs. -/
theorem claim5_fifo_eviction_witness :
    applyUpdates emptyLtm
      [("k", "aaaaaaaaaaaaaaaaaaaa1", "o1"), ("k", "aaaaaaaaaaaaaaaaaaaa2", "o2"),
        ("k", "aaaaaaaaaaaaaaaaaaaa3", "o3"), ("k", "aaaaaaaaaaaaaaaaaaaa4", "o4"),
        ("k", "aaaaaaaaaaaaaaaaaaaa5", "o5"), ("k", "aaaaaaaaaaaaaaaaaaaa6", "o6")]
      "k" =
      some [pairOf "aaaaaaaaaaaaaaaaaaaa2" "o2", pairOf "aaaaaaaaaaaaaaaaaaaa3" "o3",
        pairOf "aaaaaaaaaaaaaaaaaaaa4" "o4", pairOf "aaaaaaaaaaaaaaaaaaaa5" "o5",
        pairOf "aaaaaaaaaaaaaaaaaaaa6" "o6"] :=
  claim5_fifo_eviction emptyLtm "k" _ _ _ _ _ _ _ _ _ _ _ _ (by decide)
    (by decide) (by decide) (by decide) (by decide) (by decide) (by decide)

/-- C6: after every single `update_long_term_memory` call the updated
session's long-term list has at most 5 pairs, and after every sequence of
calls from the empty store every session's long-term list has at most 5
pairs. -/
theorem claim6_capacity_invariant :
    (∀ (ltm : LtmStore) (sid i o : String),
      ((update_long_term_memory ltm sid i o sid).getD []).length ≤ 5) ∧
    (∀ (calls : List (String × String × String)) (s : String),
      ((applyUpdates emptyLtm calls s).getD []).length ≤ 5) :=
  ⟨fun ltm sid i o => update_self_length ltm sid i o,
    fun calls s =>
      applyUpdates_length calls emptyLtm (fun _ => by simp [emptyLtm]) s⟩

/-- C10: a non-admitted call (input length ≤ 20) leaves the session's
long-term contents unchanged — it only ensures the entry exists — both for
any store whose session list is within the cap and for every store reachable
from the empty store; and every call leaves every other session's entry
untouched. -/
theorem claim10_no_admission_frame :
    (∀ (ltm : LtmStore) (sid i o : String), i.length ≤ 20 →
      ((ltm sid).getD []).length ≤ 5 →
      update_long_term_memory ltm sid i o sid = some ((ltm sid).getD [])) ∧
    (∀ (calls : List (String × String × String)) (sid i o : String),
      i.length ≤ 20 →
      update_long_term_memory (applyUpdates emptyLtm calls) sid i o sid =
        some ((applyUpdates emptyLtm calls sid).getD [])) ∧
    (∀ (ltm : LtmStore) (sid i o s : String), s ≠ sid →
      update_long_term_memory ltm sid i o s = ltm s) :=
  ⟨fun ltm sid i o h1 h2 => update_self_not_admitted ltm sid i o h1 h2,
    fun calls sid i o h1 =>
      update_self_not_admitted _ sid i o h1
        (applyUpdates_length calls emptyLtm (fun _ => by simp [emptyLtm]) sid),
    fun ltm sid i o s hs => update_other ltm sid i o s hs⟩

/-- Witness for C10 at concrete inputs: a 2-character input leaves a stored
session unchanged, also after one admissible call from the empty store, and
a call never touches a different session. -/
theorem claim10_no_admission_frame_witness :
    (update_long_term_memory
      (fun s => if s = "k" then some [pairOf "aaaaaaaaaaaaaaaaaaaaa" "o"]
        else none) "k" "Hi" "r" "k" =
      some ((((fun s => if s = "k" then some [pairOf "aaaaaaaaaaaaaaaaaaaaa" "o"]
        else none) : LtmStore) "k").getD [])) ∧
    (update_long_term_memory
      (applyUpdates emptyLtm [("k", "aaaaaaaaaaaaaaaaaaaaa", "o")]) "k" "Hi" "r"
        "k" =
      some ((applyUpdates emptyLtm [("k", "aaaaaaaaaaaaaaaaaaaaa", "o")] "k").getD
        [])) ∧
    (update_long_term_memory emptyLtm "k" "Hi" "r" "z" = emptyLtm "z") :=
  ⟨claim10_no_admission_frame.1
      (fun s => if s = "k" then some [pairOf "aaaaaaaaaaaaaaaaaaaaa" "o"]
        else none) "k" "Hi" "r" (by decide) (by decide),
    claim10_no_admission_frame.2.1 [("k", "aaaaaaaaaaaaaaaaaaaaa", "o")] "k"
      "Hi" "r" (by decide),
    claim10_no_admission_frame.2.2 emptyLtm "k" "Hi" "r" "z" (by decide)⟩

/-! ## Lemmas about `chat` -/

theorem get_chat_history_fst (store : ChatStore) (sid : String) :
    (get_chat_history store sid).1 = (store sid).getD [] := by
  unfold get_chat_history
  cases store sid <;> simp

theorem get_chat_history_snd_getD (store : ChatStore) (sid s : String) :
    ((get_chat_history store sid).2 s).getD [] = (store s).getD [] := by
  unfold get_chat_history
  cases h : store sid <;> simp
  by_cases hs : s = sid
  · subst hs
    simp [h]
  · simp [hs]

theorem chat_eq (gen : String → Except String String) (st : AgentState)
    (input_text session_id : String) :
    chat gen st input_text session_id =
      match gen (chatPromptOf st input_text session_id) with
      | .error e => (.error e, ⟨(get_chat_history st.chat_store session_id).2,
          st.long_term_memory⟩)
      | .ok response =>
          (.ok response,
            ⟨fun s => if s = session_id then
                some ((st.chat_store session_id).getD [] ++
                  [⟨"user", input_text⟩, ⟨"assitant", response⟩])
              else (get_chat_history st.chat_store session_id).2 s,
             update_long_term_memory st.long_term_memory session_id input_text
               response⟩) := by
  simp only [chat, chatPromptOf, get_chat_history_fst]

theorem foldl_renderTurn (l : List Turn) :
    ∀ a : String, l.foldl (fun acc m => acc ++ renderTurn m) a =
      a ++ renderHistory l := by
  induction l with
  | nil => intro a; simp [renderHistory]
  | cons t ts ih =>
      intro a
      simp only [List.foldl, renderHistory]
      rw [ih, String.append_assoc]

theorem chatPrompt_decomposition (long_term_mem : String)
    (chat_history : List Turn) (input_text : String) :
    chatPrompt long_term_mem chat_history input_text =
      promptHeader long_term_mem ++ renderHistory chat_history
        ++ "user: " ++ input_text ++ "\n" := by
  unfold chatPrompt
  rw [foldl_renderTurn]

/-! ## Claim theorems about `chat` -/

/-- C1: when the `generate_response` boundary call succeeds, `chat` returns
the response and the session's history has grown by exactly the user turn
followed by the assistant turn; when the boundary call fails, `chat`
propagates that failure and every session's history contents are unchanged
(no orphaned user turn). -/
theorem claim1_chat_history_ordering :
    (∀ (gen : String → Except String String) (st : AgentState)
      (input_text session_id response : String),
      gen (chatPromptOf st input_text session_id) = .ok response →
      (chat gen st input_text session_id).1 = .ok response ∧
      ((chat gen st input_text session_id).2.chat_store session_id).getD [] =
        (st.chat_store session_id).getD [] ++
          [⟨"user", input_text⟩, ⟨"assitant", response⟩]) ∧
    (∀ (gen : String → Except String String) (st : AgentState)
      (input_text session_id e : String),
      gen (chatPromptOf st input_text session_id) = .error e →
      (chat gen st input_text session_id).1 = .error e ∧
      ∀ s, ((chat gen st input_text session_id).2.chat_store s).getD [] =
        (st.chat_store s).getD []) := by
  constructor
  · intro gen st input_text session_id response h
    rw [chat_eq, h]
    simp
  · intro gen st input_text session_id e h
    rw [chat_eq, h]
    refine ⟨rfl, fun s => ?_⟩
    exact get_chat_history_snd_getD st.chat_store session_id s

/-- Witness for C1 at a concrete state: a succeeding boundary appends the
two turns, a failing boundary propagates and leaves the history untouched. -/
theorem claim1_chat_history_ordering_witness :
    ((chat (fun _ => .ok "resp") ⟨fun _ => none, fun _ => none⟩ "hello"
        "k").1 = .ok "resp" ∧
      ((chat (fun _ => .ok "resp") ⟨fun _ => none, fun _ => none⟩ "hello"
        "k").2.chat_store "k").getD [] =
        ((⟨fun _ => none, fun _ => none⟩ : AgentState).chat_store "k").getD []
          ++ [⟨"user", "hello"⟩, ⟨"assitant", "resp"⟩]) ∧
    ((chat (fun _ => .error "boom") ⟨fun _ => none, fun _ => none⟩ "hello"
        "k").1 = .error "boom" ∧
      ∀ s, ((chat (fun _ => .error "boom") ⟨fun _ => none, fun _ => none⟩
        "hello" "k").2.chat_store s).getD [] =
        ((⟨fun _ => none, fun _ => none⟩ : AgentState).chat_store s).getD []) :=
  ⟨claim1_chat_history_ordering.1 (fun _ => .ok "resp")
      ⟨fun _ => none, fun _ => none⟩ "hello" "k" "resp" rfl,
    claim1_chat_history_ordering.2 (fun _ => .error "boom")
      ⟨fun _ => none, fun _ => none⟩ "hello" "k" "boom" rfl⟩

/-- C8: the prompt `chat` hands to the boundary — `chat`'s result is the
boundary applied to exactly this prompt — is the preamble carrying the
rendered long-term memory, then the stored turn history rendered in
chronological order, then the new user input last. -/
theorem claim8_prompt_structure (gen : String → Except String String)
    (st : AgentState) (input_text session_id : String) :
    (chat gen st input_text session_id).1 =
      gen (promptHeader (get_long_term_memory st.long_term_memory session_id)
        ++ renderHistory ((st.chat_store session_id).getD [])
        ++ "user: " ++ input_text ++ "\n") := by
  rw [chat_eq]
  rw [show promptHeader (get_long_term_memory st.long_term_memory session_id)
      ++ renderHistory ((st.chat_store session_id).getD [])
      ++ "user: " ++ input_text ++ "\n" =
      chatPromptOf st input_text session_id from
    (chatPrompt_decomposition _ _ _).symm]
  cases gen (chatPromptOf st input_text session_id) <;> rfl

/-- C9: on success the first appended history entry has role exactly
`"user"`, the second role exactly the misspelt literal `"assitant"`, and
neither appended entry carries the role `"assistant"`. -/
theorem claim9_assitant_typo (gen : String → Except String String)
    (st : AgentState) (input_text session_id response : String)
    (h : gen (chatPromptOf st input_text session_id) = .ok response) :
    ((chat gen st input_text session_id).2.chat_store session_id).getD [] =
      (st.chat_store session_id).getD [] ++
        [⟨"user", input_text⟩, ⟨"assitant", response⟩] ∧
    (⟨"user", input_text⟩ : Turn).role = "user" ∧
    (⟨"assitant", response⟩ : Turn).role = "assitant" ∧
    ∀ t ∈ ([⟨"user", input_text⟩, ⟨"assitant", response⟩] : List Turn),
      t.role ≠ "assistant" := by
  refine ⟨?_, rfl, rfl, ?_⟩
  · rw [chat_eq, h]
    simp
  · intro t ht
    rcases List.mem_cons.1 ht with rfl | ht
    · exact (by decide : ("user" : String) ≠ "assistant")
    · rcases List.mem_cons.1 ht with rfl | ht
      · exact (by decide : ("assitant" : String) ≠ "assistant")
      · cases ht

/-- Witness for C9 at a concrete state and succeeding boundary. -/
theorem claim9_assitant_typo_witness :
    ((chat (fun _ => .ok "resp") ⟨fun _ => none, fun _ => none⟩ "hello"
        "k").2.chat_store "k").getD [] =
      ((⟨fun _ => none, fun _ => none⟩ : AgentState).chat_store "k").getD []
        ++ [⟨"user", "hello"⟩, ⟨"assitant", "resp"⟩] ∧
    (⟨"user", "hello"⟩ : Turn).role = "user" ∧
    (⟨"assitant", "resp"⟩ : Turn).role = "assitant" ∧
    ∀ t ∈ ([⟨"user", "hello"⟩, ⟨"assitant", "resp"⟩] : List Turn),
      t.role ≠ "assistant" :=
  claim9_assitant_typo (fun _ => .ok "resp") ⟨fun _ => none, fun _ => none⟩
    "hello" "k" "resp" rfl

/-! ## Lemmas about the pipeline loop -/

theorem solveLoop_append (elapsed : Nat → ℚ) (timeout : ℚ) :
    ∀ (pre ss : List Step) (i : Nat) (c c' : List Turn),
      execClean elapsed timeout pre i c = some c' →
      solveLoop elapsed timeout (pre ++ ss) i c =
        solveLoop elapsed timeout ss (i + pre.length) c' := by
  intro pre
  induction pre with
  | nil =>
      intro ss i c c' h
      simp only [execClean, Option.some.injEq] at h
      subst h
      simp
  | cons f rest ih =>
      intro ss i c c' h
      simp only [execClean] at h
      by_cases hT : elapsed i > timeout
      · rw [if_pos hT] at h
        cases h
      · rw [if_neg hT] at h
        simp only [List.cons_append, solveLoop, if_neg hT]
        cases hf : f c with
        | ctx c1 =>
            simp only [hf] at h ⊢
            show solveLoop elapsed timeout (rest ++ ss) (i + 1) c1 = _
            rw [ih ss (i + 1) c1 c' h]
            have hlen : i + (f :: rest).length = i + 1 + rest.length := by
              simp only [List.length_cons]
              omega
            rw [hlen]
        | final s =>
            simp only [hf] at h
            exact Option.noConfusion h
        | raise e =>
            simp only [hf] at h
            exact Option.noConfusion h

theorem execClean_appendsStep (elapsed : Nat → ℚ) (timeout : ℚ) :
    ∀ (ss : List Step) (i : Nat) (c : List Turn),
      (∀ f ∈ ss, AppendsStep f) →
      (∀ j, i ≤ j → j < i + ss.length → ¬ elapsed j > timeout) →
      ∃ tail, execClean elapsed timeout ss i c = some (c ++ tail) ∧
        solveLoop elapsed timeout ss i c =
          ((c ++ tail).getLast?).map Turn.content ∧
        (ss ≠ [] → tail ≠ []) := by
  intro ss
  induction ss with
  | nil =>
      intro i c _ _
      exact ⟨[], by simp [execClean], by simp [solveLoop],
        fun h => absurd rfl h⟩
  | cons f rest ih =>
      intro i c hA hT
      have hTi : ¬ elapsed i > timeout := by
        apply hT i le_rfl
        simp only [List.length_cons]
        omega
      obtain ⟨ts, hts, hf⟩ := hA f (List.mem_cons_self f rest) c
      have hT' : ∀ j, i + 1 ≤ j → j < i + 1 + rest.length →
          ¬ elapsed j > timeout := by
        intro j hj1 hj2
        apply hT j (by omega)
        simp only [List.length_cons]
        omega
      obtain ⟨tail, hexec, hsolve, _⟩ := ih (i + 1) (c ++ ts)
        (fun g hg => hA g (List.mem_cons_of_mem f hg)) hT'
      refine ⟨ts ++ tail, ?_, ?_,
        fun _ hcontra => hts (List.append_eq_nil.1 hcontra).1⟩
      · simp only [execClean, if_neg hTi, hf]
        rw [← List.append_assoc]
        exact hexec
      · simp only [solveLoop, if_neg hTi, hf]
        rw [← List.append_assoc]
        exact hsolve

/-! ## Claim theorems about the pipeline -/

/-- C2: if the loop reaches a step that raises, `solve` returns the canonical
error string embedding the exception's message, whatever the remaining steps
are — so no subsequent step of the pipeline executes. -/
theorem claim2_error_containment (elapsed : Nat → ℚ) (timeout : ℚ)
    (pre : List Step) (f : Step) (e : String) (c' : List Turn)
    (hpre : execClean elapsed timeout pre 0 [] = some c')
    (hf : f c' = .raise e)
    (hT : ¬ elapsed pre.length > timeout) :
    ∀ post : List Step,
      solveLoop elapsed timeout (pre ++ f :: post) 0 [] =
        some (errorMessage e) := by
  intro post
  rw [solveLoop_append elapsed timeout pre (f :: post) 0 [] c' hpre]
  simp only [Nat.zero_add, solveLoop, if_neg hT, hf]

/-- Witness for C2: step 1 succeeds, step 2's remote call raises "boom", and
the pipeline returns the canonical error string with the remaining concrete
steps never reached. -/
theorem claim2_error_containment_witness :
    solveLoop (fun _ => (1 : ℚ)) 300
      ([research_historical_context (fun _ => .ok "h1")
          HistoryDataCollaborationSystem.history_agent "t"] ++
        identify_data_needs (fun _ => .error "boom")
          HistoryDataCollaborationSystem.data_agent "t" ::
        [provide_historical_data (fun _ => .ok "h3")
            HistoryDataCollaborationSystem.history_agent "t",
          analyze_data (fun _ => .ok "h4")
            HistoryDataCollaborationSystem.data_agent "t",
          synthesize_final_answer (fun _ => .ok "h5")
            HistoryDataCollaborationSystem.history_agent "t"]) 0 [] =
      some (errorMessage "boom") :=
  claim2_error_containment (fun _ => (1 : ℚ)) 300
    [research_historical_context (fun _ => .ok "h1")
      HistoryDataCollaborationSystem.history_agent "t"]
    (identify_data_needs (fun _ => .error "boom")
      HistoryDataCollaborationSystem.data_agent "t")
    "boom" [⟨"assistant", "History Agent: h1"⟩] (by decide) (by decide)
    (by decide) _

/-- C3: whenever the check before a step finds the elapsed wall-clock time
strictly above the budget, the loop returns the canonical timeout string
without running that step or any later one; in particular `solve` with a
timeout of 0 and a positive first clock reading returns the canonical
timeout string without consulting the model boundary at all. -/
theorem claim3_timeout_before_each_step :
    (∀ (elapsed : Nat → ℚ) (timeout : ℚ) (f : Step) (rest : List Step)
      (i : Nat) (c : List Turn), elapsed i > timeout →
      solveLoop elapsed timeout (f :: rest) i c = some timeoutMessage) ∧
    (∀ (complete : List Turn → Except String String) (elapsed : Nat → ℚ)
      (task : String), 0 < elapsed 0 →
      HistoryDataCollaborationSystem.solve complete elapsed task 0 =
        some timeoutMessage) := by
  constructor
  · intro elapsed timeout f rest i c h
    simp only [solveLoop, if_pos h]
  · intro complete elapsed task h
    unfold HistoryDataCollaborationSystem.solve
      HistoryDataCollaborationSystem.steps
    simp only [solveLoop, if_pos (show elapsed 0 > 0 from h)]

/-- Witness for C3: a clock already past the budget stops the loop in front
of a concrete step, and the concrete five-step `solve` with timeout 0 times
out whatever the boundary would answer. -/
theorem claim3_timeout_before_each_step_witness :
    solveLoop (fun _ => (1 : ℚ)) 0
      (research_historical_context (fun _ => .ok "h1")
          HistoryDataCollaborationSystem.history_agent "t" :: []) 0 [] =
      some timeoutMessage ∧
    HistoryDataCollaborationSystem.solve (fun _ => .ok "r") (fun _ => (1 : ℚ))
      "t" 0 = some timeoutMessage :=
  ⟨claim3_timeout_before_each_step.1 (fun _ => (1 : ℚ)) 0
      (research_historical_context (fun _ => .ok "h1")
        HistoryDataCollaborationSystem.history_agent "t") [] 0 [] (by decide),
    claim3_timeout_before_each_step.2 (fun _ => .ok "r") (fun _ => (1 : ℚ))
      "t" (by decide)⟩

/-- C7: when every step appends to the shared context and returns it, none
returns early, and no timeout check fires, the loop returns exactly the
content of the final context's last entry. -/
theorem claim7_final_context_last_entry (elapsed : Nat → ℚ) (timeout : ℚ)
    (ss : List Step) (hne : ss ≠ [])
    (hA : ∀ f ∈ ss, AppendsStep f)
    (hT : ∀ j, j < ss.length → ¬ elapsed j > timeout) :
    ∃ (c' : List Turn) (t : Turn),
      execClean elapsed timeout ss 0 [] = some c' ∧
      c'.getLast? = some t ∧
      solveLoop elapsed timeout ss 0 [] = some t.content := by
  obtain ⟨tail, hexec, hsolve, hne'⟩ :=
    execClean_appendsStep elapsed timeout ss 0 [] hA
      (fun j _ hj2 => hT j (by omega))
  have htail : tail ≠ [] := hne' hne
  obtain ⟨t, ht⟩ : ∃ t, tail.getLast? = some t := by
    cases tail with
    | nil => exact absurd rfl htail
    | cons x xs =>
        exact ⟨(x :: xs).getLast (by simp),
          List.getLast?_eq_getLast _ (by simp)⟩
  refine ⟨tail, t, by simpa using hexec, ht, ?_⟩
  rw [hsolve]
  simp [ht]

/-- Witness for C7: five appending steps with an ample budget; the result is
the content of the last appended entry. -/
theorem claim7_final_context_last_entry_witness :
    ∃ (c' : List Turn) (t : Turn),
      execClean (fun _ => (1 : ℚ)) 300
        [fun c => StepOut.ctx (c ++ [⟨"assistant", "s"⟩]),
          fun c => StepOut.ctx (c ++ [⟨"assistant", "s"⟩]),
          fun c => StepOut.ctx (c ++ [⟨"assistant", "s"⟩]),
          fun c => StepOut.ctx (c ++ [⟨"assistant", "s"⟩]),
          fun c => StepOut.ctx (c ++ [⟨"assistant", "s"⟩])] 0 [] = some c' ∧
      c'.getLast? = some t ∧
      solveLoop (fun _ => (1 : ℚ)) 300
        [fun c => StepOut.ctx (c ++ [⟨"assistant", "s"⟩]),
          fun c => StepOut.ctx (c ++ [⟨"assistant", "s"⟩]),
          fun c => StepOut.ctx (c ++ [⟨"assistant", "s"⟩]),
          fun c => StepOut.ctx (c ++ [⟨"assistant", "s"⟩]),
          fun c => StepOut.ctx (c ++ [⟨"assistant", "s"⟩])] 0 [] =
        some t.content :=
  claim7_final_context_last_entry (fun _ => (1 : ℚ)) 300
    [fun c => StepOut.ctx (c ++ [⟨"assistant", "s"⟩]),
      fun c => StepOut.ctx (c ++ [⟨"assistant", "s"⟩]),
      fun c => StepOut.ctx (c ++ [⟨"assistant", "s"⟩]),
      fun c => StepOut.ctx (c ++ [⟨"assistant", "s"⟩]),
      fun c => StepOut.ctx (c ++ [⟨"assistant", "s"⟩])]
    (List.cons_ne_nil _ _)
    (by
      intro f hf
      have hstep : AppendsStep (fun c => StepOut.ctx (c ++ [⟨"assistant", "s"⟩])) :=
        fun c => ⟨[⟨"assistant", "s"⟩], List.cons_ne_nil _ _, rfl⟩
      simp only [List.mem_cons, List.not_mem_nil, or_false] at hf
      rcases hf with rfl | rfl | rfl | rfl | rfl <;> exact hstep)
    (fun _ _ => (by decide : ¬ (1 : ℚ) > 300))

end AwesomeAgents
